import Mathlib

/-!
Shallow embedding of the ibxpy-ai trading backend (Python) in Lean 4,
with theorems checking the natural-language specification against the code.

Conventions used throughout:
* Python `float` values are modelled as exact rationals (`ℚ`).
* Python `int` values are modelled as `Int` (or `Nat` where the source
  only ever stores non-negative counters).
* `datetime.utcnow()` is modelled by an explicit `now` parameter threaded
  into each operation (`Nat` ticks for bookkeeping timestamps, `ℚ` seconds
  where the code does time arithmetic).
* Python `dict` is modelled as an insertion-ordered association list;
  assignment to an existing key replaces the value in place, matching
  CPython's ordered-dict semantics.
* Exceptions are modelled with `Option`: `none` where the Python code
  raises (or returns `None`), `some` carrying the updated state/result.
-/

/-! ## Generic association-list helpers (model of Python dict) -/

def alookup {κ α : Type} [DecidableEq κ] : List (κ × α) → κ → Option α
  | [], _ => none
  | (k2, v) :: rest, k => if k2 = k then some v else alookup rest k

def ainsert {κ α : Type} [DecidableEq κ] : List (κ × α) → κ → α → List (κ × α)
  | [], k, v => [(k, v)]
  | (k2, v2) :: rest, k, v =>
      if k2 = k then (k, v) :: rest else (k2, v2) :: ainsert rest k v

def aremove {κ α : Type} [DecidableEq κ] : List (κ × α) → κ → List (κ × α)
  | [], _ => []
  | (k2, v2) :: rest, k => if k2 = k then rest else (k2, v2) :: aremove rest k

/-- Model of Python `set.add`. -/
def setAdd {κ : Type} [DecidableEq κ] (s : List κ) (k : κ) : List κ :=
  if k ∈ s then s else k :: s

/-- Model of Python `set.discard`. -/
def setDiscard {κ : Type} [DecidableEq κ] (s : List κ) (k : κ) : List κ :=
  s.filter (fun x => x ≠ k)

/-! ## backend/core/error_handler.py -/

/-- `CircuitBreakerState` enum from error_handler.py. -/
inductive CircuitBreakerState
  | CLOSED
  | OPEN
  | HALF_OPEN
deriving DecidableEq, Repr

/-- Mutable fields of the `CircuitBreaker` class. -/
structure CircuitBreaker where
  failure_threshold : Nat
  recovery_timeout : ℚ
  failure_count : Nat
  last_failure_time : Option ℚ
  state : CircuitBreakerState
deriving DecidableEq, Repr

/-- `CircuitBreaker.__init__`. -/
def CircuitBreaker.init (failure_threshold : Nat) (recovery_timeout : ℚ) :
    CircuitBreaker :=
  { failure_threshold := failure_threshold
    recovery_timeout := recovery_timeout
    failure_count := 0
    last_failure_time := none
    state := CircuitBreakerState.CLOSED }

/-- `CircuitBreaker._should_attempt_reset`:
`last_failure_time and utcnow() - last_failure_time > timedelta(recovery_timeout)`. -/
def CircuitBreaker.should_attempt_reset (cb : CircuitBreaker) (now : ℚ) : Bool :=
  match cb.last_failure_time with
  | none => false
  | some t => decide (now - t > cb.recovery_timeout)

/-- `CircuitBreaker._on_success`: reset count, close circuit. -/
def CircuitBreaker.on_success (cb : CircuitBreaker) : CircuitBreaker :=
  { cb with failure_count := 0, state := CircuitBreakerState.CLOSED }

/-- `CircuitBreaker._on_failure`: bump count, stamp time, open at threshold. -/
def CircuitBreaker.on_failure (cb : CircuitBreaker) (now : ℚ) : CircuitBreaker :=
  let cb2 := { cb with failure_count := cb.failure_count + 1,
                       last_failure_time := some now }
  if cb2.failure_count ≥ cb2.failure_threshold then
    { cb2 with state := CircuitBreakerState.OPEN }
  else
    cb2

/-- Observable outcome of one `CircuitBreaker.call`. -/
inductive CallResult
  | rejected  -- `TradingException("Circuit breaker is OPEN")`, wrapped fn not invoked
  | returned  -- wrapped fn invoked and returned normally
  | raised    -- wrapped fn invoked, raised, and the exception was re-raised
deriving DecidableEq, Repr

/-- `CircuitBreaker.call`, with the wrapped function abstracted to the single
bit `func_succeeds` (the default `expected_exception = Exception` catches any
failure). Returns the new breaker state and what the caller observes. -/
def CircuitBreaker.call (cb : CircuitBreaker) (now : ℚ) (func_succeeds : Bool) :
    CircuitBreaker × CallResult :=
  if cb.state = CircuitBreakerState.OPEN ∧ ¬ cb.should_attempt_reset now then
    (cb, CallResult.rejected)
  else
    let cb1 :=
      if cb.state = CircuitBreakerState.OPEN then
        { cb with state := CircuitBreakerState.HALF_OPEN }
      else cb
    if func_succeeds then (cb1.on_success, CallResult.returned)
    else (cb1.on_failure now, CallResult.raised)

/-- `RetryPolicy.__init__` fields. -/
structure RetryPolicy where
  max_attempts : Nat
  initial_delay : ℚ
  max_delay : ℚ
  exponential_base : ℚ
  jitter : Bool
deriving DecidableEq, Repr

/-- `RetryPolicy.get_delay`; `r` models the value of `random.random()`,
which lies in `[0, 1)`. -/
def RetryPolicy.get_delay (p : RetryPolicy) (attempt : Nat) (r : ℚ) : ℚ :=
  let delay := min (p.initial_delay * p.exponential_base ^ attempt) p.max_delay
  if p.jitter then delay * (1/2 + r) else delay

/-! ## backend/services/market_data_processor.py -/

/-- `FiveSecondBar` dataclass; `open_` models the Python field `open`
(a reserved word in Lean), timestamps are seconds as `ℚ`. -/
structure FiveSecondBar where
  symbol : String
  timestamp : ℚ
  open_ : ℚ
  high : ℚ
  low : ℚ
  close : ℚ
  volume : Int
  wap : ℚ
  count : Int
deriving DecidableEq, Repr

/-- `AggregatedBar` dataclass (`open_` models the field `open`). -/
structure AggregatedBar where
  symbol : String
  period : String
  timestamp : ℚ
  open_ : ℚ
  high : ℚ
  low : ℚ
  close : ℚ
  volume : Int
  vwap : ℚ
  trade_count : Int
deriving DecidableEq, Repr

/-- Python `round(x, 2)` on an exact value: scale by 100, round half to
even, scale back. -/
def pyRound2 (q : ℚ) : ℚ :=
  let scaled := q * 100
  let f : ℤ := Int.floor scaled
  let frac := scaled - (f : ℚ)
  let n : ℤ :=
    if frac < 1/2 then f
    else if 1/2 < frac then f + 1
    else if f % 2 = 0 then f else f + 1
  (n : ℚ) / 100

/-- The `period_map` lookup in `BarBuffer.get_aggregated_bar`. -/
def period_map (seconds : Int) : String :=
  if seconds = 60 then "1min"
  else if seconds = 300 then "5min"
  else if seconds = 900 then "15min"
  else if seconds = 3600 then "1hour"
  else toString seconds ++ "s"

/-- The in-window filter of `BarBuffer.get_aggregated_bar`:
`[bar for bar in self.bars if bar.timestamp >= cutoff_time]` with
`cutoff_time = utcnow() - timedelta(seconds=seconds)`. -/
def recentBars (bars : List FiveSecondBar) (now : ℚ) (seconds : Int) :
    List FiveSecondBar :=
  bars.filter (fun bar => now - (seconds : ℚ) ≤ bar.timestamp)

/-- `BarBuffer.get_aggregated_bar`, with the buffer contents, the clock and
the window length made explicit. -/
def BarBuffer.get_aggregated_bar (symbol : String) (bars : List FiveSecondBar)
    (now : ℚ) (seconds : Int) : Option AggregatedBar :=
  if bars = [] then none
  else
    match recentBars bars now seconds with
    | [] => none
    | first :: rest =>
      let open_price := first.open_
      let close_price := (rest.getLastD first).close
      let high_price := rest.foldl (fun acc bar => max acc bar.high) first.high
      let low_price := rest.foldl (fun acc bar => min acc bar.low) first.low
      let total_volume := rest.foldl (fun acc bar => acc + bar.volume) first.volume
      let total_trades := rest.foldl (fun acc bar => acc + bar.count) first.count
      let vwap :=
        if 0 < total_volume then
          (rest.foldl (fun acc bar => acc + bar.wap * (bar.volume : ℚ))
            (first.wap * (first.volume : ℚ))) / (total_volume : ℚ)
        else close_price
      some
        { symbol := symbol
          period := period_map seconds
          timestamp := (rest.getLastD first).timestamp
          open_ := open_price
          high := high_price
          low := low_price
          close := close_price
          volume := total_volume
          vwap := pyRound2 vwap
          trade_count := total_trades }

/-! ## backend/services/state_manager.py -/

/-- `TradingMode` enum. -/
inductive TradingMode
  | PAPER
  | LIVE
  | SIMULATION
deriving DecidableEq, Repr

/-- `Position` dataclass. -/
structure Position where
  symbol : String
  quantity : ℚ
  avg_cost : ℚ
  current_price : ℚ
  market_value : ℚ
  unrealized_pnl : ℚ
  realized_pnl : ℚ
  account : String
  last_update : Nat
deriving DecidableEq, Repr

/-- `AccountData` dataclass. -/
structure AccountData where
  account_id : String
  account_type : String
  currency : String
  cash_balance : ℚ
  total_value : ℚ
  buying_power : ℚ
  maintenance_margin : ℚ
  available_funds : ℚ
  pnl_realized : ℚ
  pnl_unrealized : ℚ
  last_update : Nat
deriving DecidableEq, Repr

/-- `RiskMetrics` dataclass. -/
structure RiskMetrics where
  total_exposure : ℚ
  position_count : Nat
  largest_position_symbol : Option String
  largest_position_value : ℚ
  total_unrealized_pnl : ℚ
  total_realized_pnl : ℚ
  margin_usage_percent : ℚ
  risk_score : ℚ
deriving DecidableEq, Repr

/-- `TradingSession` dataclass. -/
structure TradingSession where
  session_id : String
  start_time : Nat
  end_time : Option Nat
  mode : TradingMode
  initial_balance : ℚ
  current_balance : ℚ
  total_trades : Nat
  winning_trades : Nat
  losing_trades : Nat
  total_pnl : ℚ
  max_drawdown : ℚ
deriving DecidableEq, Repr

/-- The mutable fields of `StateManager` that the modelled operations touch. -/
structure StateManagerState where
  positions : List (String × Position)
  accounts : List (String × AccountData)
  current_session : Option TradingSession
  risk_metrics : Option RiskMetrics
deriving DecidableEq, Repr

/-- A fresh `StateManager.__init__` state (no positions, accounts, session
or risk metrics). -/
def StateManagerState.init : StateManagerState :=
  { positions := [], accounts := [], current_session := none,
    risk_metrics := none }

/-- Python `max(iterable, key=...)`: the first element attaining the
maximum key wins (a later element replaces only when strictly greater). -/
def pyMaxBy (first : Position) (rest : List Position) (key : Position → ℚ) :
    Position :=
  rest.foldl (fun best p => if key best < key p then p else best) first

/-- The `total_account_value` computation inside
`StateManager._calculate_risk_metrics`:
`sum(a.total_value for a in self._accounts.values()) or 1.0` (Python `or`
replaces a zero sum — falsy — by 1.0). -/
def riskTotalAccountValue (accounts : List (String × AccountData)) : ℚ :=
  let sum_total_value := (accounts.map (fun a => a.2.total_value)).sum
  if sum_total_value = 0 then 1 else sum_total_value

/-- `StateManager._calculate_risk_metrics`, as a function of the positions
and accounts tables. -/
def calculate_risk_metrics (positions : List (String × Position))
    (accounts : List (String × AccountData)) : RiskMetrics :=
  match positions with
  | [] =>
    { total_exposure := 0, position_count := 0,
      largest_position_symbol := none, largest_position_value := 0,
      total_unrealized_pnl := 0, total_realized_pnl := 0,
      margin_usage_percent := 0, risk_score := 0 }
  | kp :: kps =>
    let ps := (kp :: kps).map Prod.snd
    let total_exposure := (ps.map (fun p => |p.market_value|)).sum
    let position_count := ps.length
    let total_unrealized_pnl := (ps.map (fun p => p.unrealized_pnl)).sum
    let total_realized_pnl := (ps.map (fun p => p.realized_pnl)).sum
    let largest_position :=
      pyMaxBy kp.2 (kps.map Prod.snd) (fun p => |p.market_value|)
    let total_account_value := riskTotalAccountValue accounts
    let margin_usage_percent :=
      if 0 < total_account_value then total_exposure / total_account_value * 100
      else 0
    let risk_factors : List ℚ :=
      [ min ((position_count : ℚ) * 5) 30,
        min (margin_usage_percent / 2) 40,
        if 0 < total_account_value then
          min (|total_unrealized_pnl / total_account_value| * 100) 30
        else 0 ]
    let risk_score := risk_factors.sum
    { total_exposure := total_exposure
      position_count := position_count
      largest_position_symbol := some largest_position.symbol
      largest_position_value := largest_position.market_value
      total_unrealized_pnl := total_unrealized_pnl
      total_realized_pnl := total_realized_pnl
      margin_usage_percent := margin_usage_percent
      risk_score := min risk_score 100 }

/-- The create/replace branch of `StateManager.update_position`: compute
market value and unrealized P&L and store the fresh `Position`. -/
def StateManager.update_position_create (positions : List (String × Position))
    (symbol : String) (quantity avg_cost current_price : ℚ)
    (account : String) (now : Nat) : List (String × Position) × Position :=
  let market_value := quantity * current_price
  let unrealized_pnl :=
    if quantity ≠ 0 then (current_price - avg_cost) * quantity else 0
  let position : Position :=
    { symbol := symbol
      quantity := quantity
      avg_cost := avg_cost
      current_price := current_price
      market_value := market_value
      unrealized_pnl := unrealized_pnl
      realized_pnl := 0  -- "Updated separately"
      account := account
      last_update := now }
  (ainsert positions symbol position, position)

/-- `StateManager.update_position` (the broadcast at the end is I/O and is
not part of the state). Returns the new state and the `Position` the method
returns. -/
def StateManager.update_position (s : StateManagerState) (symbol : String)
    (quantity avg_cost current_price : ℚ) (account : String) (now : Nat) :
    StateManagerState × Position :=
  let (positions2, position) :=
    match alookup s.positions symbol with
    | some existing =>
      if quantity = 0 then
        -- `quantity == 0 and symbol in self._positions`: pop the position
        (aremove s.positions symbol, existing)
      else
        StateManager.update_position_create s.positions symbol quantity
          avg_cost current_price account now
    | none =>
      -- note: with `quantity == 0` but no existing position, the code
      -- still takes the create branch and stores a zero-quantity position
      StateManager.update_position_create s.positions symbol quantity
        avg_cost current_price account now
  ({ s with positions := positions2,
            risk_metrics := some (calculate_risk_metrics positions2 s.accounts) },
   position)

/-- `StateManager.get_all_positions`: `list(self._positions.values())`. -/
def StateManager.get_all_positions (s : StateManagerState) : List Position :=
  s.positions.map Prod.snd

/-- `StateManager.get_position`: `self._positions.get(symbol)`. -/
def StateManager.get_position (s : StateManagerState) (symbol : String) :
    Option Position :=
  alookup s.positions symbol

/-- `StateManager.record_trade_result`: bump session statistics (no-op when
there is no current session). -/
def StateManager.record_trade_result (s : StateManagerState) (pnl : ℚ) :
    StateManagerState :=
  match s.current_session with
  | none => s
  | some sess0 =>
    let sess1 := { sess0 with total_trades := sess0.total_trades + 1,
                              total_pnl := sess0.total_pnl + pnl }
    let sess2 :=
      if 0 < pnl then
        { sess1 with winning_trades := sess1.winning_trades + 1 }
      else
        { sess1 with losing_trades := sess1.losing_trades + 1 }
    let sess3 :=
      if 0 < sess2.initial_balance then
        let current_drawdown :=
          (sess2.initial_balance - sess2.current_balance)
            / sess2.initial_balance * 100
        { sess2 with max_drawdown := max sess2.max_drawdown current_drawdown }
      else sess2
    { s with current_session := some sess3 }

/-! ## backend/services/order_manager.py -/

/-- `OrderStatus` enum. -/
inductive OrderStatus
  | PENDING
  | SUBMITTED
  | ACKNOWLEDGED
  | CANCELLED
  | FILLED
  | PARTIALLY_FILLED
  | REJECTED
  | ERROR
deriving DecidableEq, Repr

/-- `OrderStatus.value` strings. -/
def OrderStatus.value : OrderStatus → String
  | .PENDING => "PENDING"
  | .SUBMITTED => "SUBMITTED"
  | .ACKNOWLEDGED => "ACKNOWLEDGED"
  | .CANCELLED => "CANCELLED"
  | .FILLED => "FILLED"
  | .PARTIALLY_FILLED => "PARTIALLY_FILLED"
  | .REJECTED => "REJECTED"
  | .ERROR => "ERROR"

/-- `OrderAction` enum. -/
inductive OrderAction
  | BUY
  | SELL
deriving DecidableEq, Repr

/-- `OrderAction[name]` lookup by member name; `none` models the `KeyError`
raised on any other string. -/
def OrderAction.ofString (s : String) : Option OrderAction :=
  if s = "BUY" then some OrderAction.BUY
  else if s = "SELL" then some OrderAction.SELL
  else none

/-- `OrderType` enum. -/
inductive OrderType
  | MARKET
  | LIMIT
  | STOP
  | STOP_LIMIT
deriving DecidableEq, Repr

/-- `OrderType[name]` lookup by member name; `none` models the `KeyError`. -/
def OrderType.ofString (s : String) : Option OrderType :=
  if s = "MARKET" then some OrderType.MARKET
  else if s = "LIMIT" then some OrderType.LIMIT
  else if s = "STOP" then some OrderType.STOP
  else if s = "STOP_LIMIT" then some OrderType.STOP_LIMIT
  else none

/-- `OrderEvent` dataclass (the free-form `details` dict is elided). -/
structure OrderEvent where
  order_id : Int
  event_type : String
  timestamp : Nat
  status : OrderStatus
  message : String
deriving DecidableEq, Repr

/-- `OrderDetails` dataclass. -/
structure OrderDetails where
  order_id : Int
  symbol : String
  action : OrderAction
  order_type : OrderType
  quantity : Int
  limit_price : Option ℚ
  stop_price : Option ℚ
  filled_quantity : Int
  remaining_quantity : Int
  avg_fill_price : ℚ
  last_fill_price : ℚ
  status : OrderStatus
  submit_time : Nat
  last_update_time : Nat
  commission : ℚ
  events : List OrderEvent
  execution_latency_ms : Option ℚ
deriving DecidableEq, Repr

/-- `ExecutionReport` dataclass. -/
structure ExecutionReport where
  order_id : Int
  exec_id : String
  symbol : String
  side : String
  quantity : Int
  price : ℚ
  commission : ℚ
  timestamp : Nat
  cumulative_quantity : Int
  average_price : ℚ
deriving DecidableEq, Repr

/-- The mutable tables of `OrderManager` touched by the modelled calls. -/
structure OrderManagerState where
  orders : List (Int × OrderDetails)
  executions : List (Int × List ExecutionReport)
  active_orders : List Int
deriving DecidableEq, Repr

/-- `OrderManager.__init__`: empty tables. -/
def OrderManagerState.init : OrderManagerState :=
  { orders := [], executions := [], active_orders := [] }

/-- `OrderManager.create_order`. `none` models the `KeyError` escaping from
`OrderAction[action]` / `OrderType[order_type]` (in that case nothing has
been written to the tables yet); otherwise the new order is stored —
overwriting any existing order with the same id — and returned. -/
def OrderManager.create_order (s : OrderManagerState) (order_id : Int)
    (symbol action order_type : String) (quantity : Int)
    (limit_price stop_price : Option ℚ) (now : Nat) :
    Option (OrderManagerState × OrderDetails) :=
  match OrderAction.ofString action, OrderType.ofString order_type with
  | some act, some otype =>
    let order : OrderDetails :=
      { order_id := order_id
        symbol := symbol
        action := act
        order_type := otype
        quantity := quantity
        limit_price := limit_price
        stop_price := stop_price
        filled_quantity := 0
        remaining_quantity := quantity
        avg_fill_price := 0
        last_fill_price := 0
        status := OrderStatus.PENDING
        submit_time := now
        last_update_time := now
        commission := 0
        events :=
          [ { order_id := order_id
              event_type := "ORDER_CREATED"
              timestamp := now
              status := OrderStatus.PENDING
              message := "Order created" } ]
        execution_latency_ms := none }
    some ({ s with orders := ainsert s.orders order_id order,
                   active_orders := setAdd s.active_orders order_id },
          order)
  | _, _ => none

/-- The `status_map` dict of `OrderManager.update_order_status`, with its
`.get(status, OrderStatus.ACKNOWLEDGED)` default. -/
def status_map (status : String) : OrderStatus :=
  if status = "PendingSubmit" then OrderStatus.PENDING
  else if status = "PreSubmitted" then OrderStatus.SUBMITTED
  else if status = "Submitted" then OrderStatus.SUBMITTED
  else if status = "Filled" then OrderStatus.FILLED
  else if status = "Cancelled" then OrderStatus.CANCELLED
  else if status = "Inactive" then OrderStatus.CANCELLED
  else if status = "ApiCancelled" then OrderStatus.CANCELLED
  else if status = "Error" then OrderStatus.ERROR
  else OrderStatus.ACKNOWLEDGED

/-- The terminal statuses that drop an order from `_active_orders`. -/
def terminalStatuses : List OrderStatus :=
  [OrderStatus.FILLED, OrderStatus.CANCELLED, OrderStatus.REJECTED,
   OrderStatus.ERROR]

/-- `OrderManager.update_order_status`. Unknown order ids are a logged
no-op returning `None`; otherwise the order is updated in place and
returned. -/
def OrderManager.update_order_status (s : OrderManagerState) (order_id : Int)
    (status : String) (filled remaining : Int)
    (avg_fill_price last_fill_price : ℚ) (message : String) (now : Nat) :
    OrderManagerState × Option OrderDetails :=
  match alookup s.orders order_id with
  | none => (s, none)
  | some order =>
    let mapped := status_map status
    let new_status :=
      if 0 < filled ∧ filled < order.quantity then OrderStatus.PARTIALLY_FILLED
      else mapped
    let event : OrderEvent :=
      { order_id := order_id
        event_type := "STATUS_UPDATE"
        timestamp := now
        status := new_status
        message :=
          if message = "" then "Status changed to " ++ new_status.value
          else message }
    let order2 :=
      { order with status := new_status
                   filled_quantity := filled
                   remaining_quantity := remaining
                   avg_fill_price := avg_fill_price
                   last_fill_price := last_fill_price
                   last_update_time := now
                   events := order.events ++ [event] }
    let active2 :=
      if new_status ∈ terminalStatuses then setDiscard s.active_orders order_id
      else s.active_orders
    ({ s with orders := ainsert s.orders order_id order2,
              active_orders := active2 },
     some order2)

/-- `OrderManager.add_execution`. Unknown order ids are a logged no-op
returning `None`; otherwise the report is appended and the order's
commission and event list updated. -/
def OrderManager.add_execution (s : OrderManagerState) (order_id : Int)
    (exec_id symbol side : String) (quantity : Int) (price commission : ℚ)
    (cumulative_quantity : Int) (average_price : ℚ) (now : Nat) :
    OrderManagerState × Option ExecutionReport :=
  match alookup s.orders order_id with
  | none => (s, none)
  | some order =>
    let execution : ExecutionReport :=
      { order_id := order_id
        exec_id := exec_id
        symbol := symbol
        side := side
        quantity := quantity
        price := price
        commission := commission
        timestamp := now
        cumulative_quantity := cumulative_quantity
        average_price := average_price }
    let prev := (alookup s.executions order_id).getD []
    let event : OrderEvent :=
      { order_id := order_id
        event_type := "EXECUTION"
        timestamp := now
        status := order.status
        message := "Executed" }
    let order2 :=
      { order with commission := order.commission + commission
                   last_update_time := now
                   events := order.events ++ [event] }
    ({ s with orders := ainsert s.orders order_id order2,
              executions := ainsert s.executions order_id (prev ++ [execution]) },
     some execution)

/-- One call to the order tracker, for reasoning about call sequences
(arguments exactly those of the three methods; timestamps are supplied by
the run). -/
inductive OMOp
  | create (order_id : Int) (symbol action order_type : String)
      (quantity : Int) (limit_price stop_price : Option ℚ)
  | updateStatus (order_id : Int) (status : String) (filled remaining : Int)
      (avg_fill_price last_fill_price : ℚ) (message : String)
  | addExec (order_id : Int) (exec_id symbol side : String) (quantity : Int)
      (price commission : ℚ) (cumulative_quantity : Int) (average_price : ℚ)
deriving DecidableEq, Repr

/-- Apply one call to the order-manager state (a `create` whose enum lookup
raises leaves the state unchanged, as in the source). -/
def OMOp.apply (s : OrderManagerState) (now : Nat) : OMOp → OrderManagerState
  | .create order_id symbol action order_type quantity limit_price stop_price =>
    match OrderManager.create_order s order_id symbol action order_type
        quantity limit_price stop_price now with
    | some (s2, _) => s2
    | none => s
  | .updateStatus order_id status filled remaining avg lastp message =>
    (OrderManager.update_order_status s order_id status filled remaining
      avg lastp message now).1
  | .addExec order_id exec_id symbol side quantity price commission cum avgp =>
    (OrderManager.add_execution s order_id exec_id symbol side quantity price
      commission cum avgp now).1

/-- Consistency of a call's arguments with the tracked order, i.e. what a
well-behaved broker callback reports: a non-negative created quantity, and
status updates whose `filled` lies in `[0, quantity]` with
`filled + remaining = quantity`. -/
def OMOp.consistent (s : OrderManagerState) : OMOp → Bool
  | .create _ _ _ _ quantity _ _ => decide (0 ≤ quantity)
  | .updateStatus order_id _ filled remaining _ _ _ =>
    match alookup s.orders order_id with
    | none => true
    | some order =>
      decide (0 ≤ filled ∧ filled ≤ order.quantity ∧
              filled + remaining = order.quantity)
  | .addExec _ _ _ _ _ _ _ _ _ => true

/-- Run a sequence of calls from a given state, timestamping the i-th call
with tick `t + i`; also reports whether every call was consistent with the
state it met. -/
def OMRunAux : OrderManagerState → Nat → List OMOp →
    OrderManagerState × Bool
  | s, _, [] => (s, true)
  | s, t, op :: rest =>
    ((OMRunAux (op.apply s t) (t + 1) rest).1,
     op.consistent s && (OMRunAux (op.apply s t) (t + 1) rest).2)

/-- Run a sequence of calls from the freshly constructed order manager. -/
def OMRun (ops : List OMOp) : OrderManagerState :=
  (OMRunAux OrderManagerState.init 0 ops).1

/-- Whether every call in the sequence was consistent (see
`OMOp.consistent`). -/
def OMRunConsistent (ops : List OMOp) : Bool :=
  (OMRunAux OrderManagerState.init 0 ops).2

/-- The per-order invariant of claim C1: fills never exceed the requested
quantity, and a terminal order accounts for the full quantity. -/
def OrderInvariant (o : OrderDetails) : Prop :=
  0 ≤ o.filled_quantity ∧ o.filled_quantity ≤ o.quantity ∧
  (o.status ∈ terminalStatuses →
    o.filled_quantity + o.remaining_quantity = o.quantity)

/-- The invariant over the whole order table. -/
def OMInvariant (s : OrderManagerState) : Prop :=
  ∀ id o, alookup s.orders id = some o → OrderInvariant o

/-! ## backend/services/connection_recovery.py -/

/-- `RecoveryState` enum. -/
inductive RecoveryState
  | IDLE
  | RECOVERING
  | RECONNECTING
  | RESTORING
  | COMPLETED
  | FAILED
deriving DecidableEq, Repr

/-- `_recovery_state` right after `__init__` / `start()`. -/
def recoveryInitialState : RecoveryState := RecoveryState.IDLE

/-- The successive values `_recovery_state` takes during one run of
`ConnectionRecoveryService._recovery_process`, driven by whether
`_attempt_reconnection` eventually returns `True`.  The `finally` clause
clears `_recovery_context` but assigns nothing to `_recovery_state`, so the
last element of this trace is the state the machine is left in. -/
def recoveryStateTrace (reconnect_succeeds : Bool) : List RecoveryState :=
  if reconnect_succeeds then
    [RecoveryState.RECOVERING, RecoveryState.RECONNECTING,
     RecoveryState.RESTORING, RecoveryState.COMPLETED]
  else
    [RecoveryState.RECOVERING, RecoveryState.RECONNECTING,
     RecoveryState.FAILED]

/-- The state `_recovery_process` leaves `_recovery_state` in after it
settles. -/
def recoveryFinalState (reconnect_succeeds : Bool) : RecoveryState :=
  (recoveryStateTrace reconnect_succeeds).getLastD recoveryInitialState

/-- The auto-trigger condition of `_health_check_loop`:
`not status["connected"] and self._recovery_state == RecoveryState.IDLE`. -/
def healthCheckAutoTriggers (connected : Bool) (st : RecoveryState) : Bool :=
  !connected && (st == RecoveryState.IDLE)

/-! ## Scenario and counterexample fixtures -/

/-- The circuit breaker after three failing calls (at times `t1 ≤ t2 ≤ t3`)
starting from a fresh breaker with `failure_threshold = 3`. -/
def cbAfterThreeFailures (timeout t1 t2 t3 : ℚ) : CircuitBreaker :=
  ((((CircuitBreaker.init 3 timeout).call t1 false).1.call t2 false).1.call
    t3 false).1

def witnessSession : TradingSession :=
  { session_id := "session_20260101_000000"
    start_time := 0
    end_time := none
    mode := TradingMode.PAPER
    initial_balance := 1000
    current_balance := 1000
    total_trades := 2
    winning_trades := 1
    losing_trades := 1
    total_pnl := 5
    max_drawdown := 0 }

def witnessSMState : StateManagerState :=
  { StateManagerState.init with current_session := some witnessSession }

def witnessPosition : Position :=
  { symbol := "AAPL"
    quantity := 5
    avg_cost := 10
    current_price := 12
    market_value := 60
    unrealized_pnl := 10
    realized_pnl := 0
    account := "default"
    last_update := 0 }

def witnessSMState2 : StateManagerState :=
  { StateManagerState.init with positions := [("AAPL", witnessPosition)] }

/-- The order produced by
`create_order(1, "AAPL", "BUY", "MARKET", 5)` on a fresh manager at tick 0. -/
def dupOrder1 : OrderDetails :=
  { order_id := 1
    symbol := "AAPL"
    action := OrderAction.BUY
    order_type := OrderType.MARKET
    quantity := 5
    limit_price := none
    stop_price := none
    filled_quantity := 0
    remaining_quantity := 5
    avg_fill_price := 0
    last_fill_price := 0
    status := OrderStatus.PENDING
    submit_time := 0
    last_update_time := 0
    commission := 0
    events := [{ order_id := 1
                 event_type := "ORDER_CREATED"
                 timestamp := 0
                 status := OrderStatus.PENDING
                 message := "Order created" }]
    execution_latency_ms := none }

/-- The manager state after that first `create_order`. -/
def dupState1 : OrderManagerState :=
  { orders := [(1, dupOrder1)], executions := [], active_orders := [1] }

/-- A second `create_order` reusing order id 1 with a different side and
quantity. -/
def dupCreate2 : Option (OrderManagerState × OrderDetails) :=
  OrderManager.create_order dupState1 1 "AAPL" "SELL" "MARKET" 7 none none 1

/-- A call sequence whose status update reports more filled than requested:
create order 1 for 5 shares, then a broker callback claiming 10 filled. -/
def c1CounterOps : List OMOp :=
  [OMOp.create 1 "AAPL" "BUY" "MARKET" 5 none none,
   OMOp.updateStatus 1 "Submitted" 10 0 0 0 ""]

/-- A consistent call sequence: create, acknowledge, fill, execution. -/
def c1WitnessOps : List OMOp :=
  [OMOp.create 1 "AAPL" "BUY" "MARKET" 5 none none,
   OMOp.updateStatus 1 "Submitted" 0 5 0 0 "",
   OMOp.updateStatus 1 "Filled" 5 0 150 150 "",
   OMOp.addExec 1 "exec1" "AAPL" "BOT" 5 150 1 5 150]

/-- A 5-second bar whose OHLC and wap all equal `close` (as `process_bar`
builds when `wap` is absent), with volume 100 and one trade. -/
def scenarioBar (ts close : ℚ) : FiveSecondBar :=
  { symbol := "AAPL"
    timestamp := ts
    open_ := close
    high := close
    low := close
    close := close
    volume := 100
    wap := close
    count := 1 }

/-- The five bars of the aggregation scenario (closes 150.0 … 150.5,
equal volume 100, 5 seconds apart, all within a 25-second window ending at
time 100). -/
def scenarioBars : List FiveSecondBar :=
  [scenarioBar 80 150, scenarioBar 85 150.1, scenarioBar 90 150.2,
   scenarioBar 95 150.3, scenarioBar 100 150.5]

/-- A single in-window bar whose wap has three decimal places. -/
def roundingBar : FiveSecondBar :=
  { symbol := "AAPL"
    timestamp := 0
    open_ := 1234/1000
    high := 1234/1000
    low := 1234/1000
    close := 1234/1000
    volume := 100
    wap := 1234/1000
    count := 1 }

/-! ## Theorems -/

theorem cbAfterThreeFailures_eq (timeout t1 t2 t3 : ℚ) :
    cbAfterThreeFailures timeout t1 t2 t3 =
      { failure_threshold := 3
        recovery_timeout := timeout
        failure_count := 3
        last_failure_time := some t3
        state := CircuitBreakerState.OPEN } := rfl

/-- C9: with jitter disabled the retry delay is
`min (initial_delay * base ^ attempt) max_delay`; for
`initial_delay = 1, base = 2, max_delay = 10` the delays for attempts 0–4
are 1, 2, 4, 8, 10; with jitter enabled the delay is the capped value
times a factor in `[1/2, 3/2)`. -/
theorem retry_policy_get_delay_spec (p : RetryPolicy) (attempt : Nat) (r : ℚ)
    (h0 : 0 ≤ r) (h1 : r < 1) :
    (p.jitter = false →
      p.get_delay attempt r =
        min (p.initial_delay * p.exponential_base ^ attempt) p.max_delay) ∧
    ((RetryPolicy.mk 3 1 10 2 false).get_delay 0 r = 1 ∧
     (RetryPolicy.mk 3 1 10 2 false).get_delay 1 r = 2 ∧
     (RetryPolicy.mk 3 1 10 2 false).get_delay 2 r = 4 ∧
     (RetryPolicy.mk 3 1 10 2 false).get_delay 3 r = 8 ∧
     (RetryPolicy.mk 3 1 10 2 false).get_delay 4 r = 10) ∧
    (p.jitter = true →
      ∃ f, 1/2 ≤ f ∧ f < 3/2 ∧
        p.get_delay attempt r =
          min (p.initial_delay * p.exponential_base ^ attempt) p.max_delay
            * f) := by
  refine ⟨fun hj => by simp [RetryPolicy.get_delay, hj], ?_, fun hj => ?_⟩
  · refine ⟨?_, ?_, ?_, ?_, ?_⟩ <;> norm_num [RetryPolicy.get_delay]
  · exact ⟨1/2 + r, by linarith, by linarith,
      by simp [RetryPolicy.get_delay, hj]⟩

theorem retry_policy_get_delay_spec_witness :
    (RetryPolicy.mk 3 1 10 2 false).get_delay 4 (1/4) = 10 :=
  ((retry_policy_get_delay_spec (RetryPolicy.mk 3 1 10 2 false) 4 (1/4)
    (by norm_num) (by norm_num)).2.1).2.2.2.2

/-- C3: with `failure_threshold = 3`, three consecutive failing calls move
a fresh breaker Closed → Open; a fourth call before `recovery_timeout` has
elapsed since the last failure is rejected with the typed circuit-open
failure without invoking the wrapped function (whatever that function would
do) and changes nothing; once more than `recovery_timeout` has elapsed the
next call is executed (HalfOpen trial) and its outcome decides the state:
success returns to Closed with the failure count reset, failure returns to
Open. -/
theorem circuit_breaker_lifecycle (timeout t1 t2 t3 t4 t5 : ℚ)
    (b succ : Bool) (h4 : t4 - t3 < timeout) (h5 : timeout < t5 - t3) :
    ((((CircuitBreaker.init 3 timeout).call t1 false).1).state =
        CircuitBreakerState.CLOSED) ∧
    (((((CircuitBreaker.init 3 timeout).call t1 false).1.call t2
        false).1).state = CircuitBreakerState.CLOSED) ∧
    (cbAfterThreeFailures timeout t1 t2 t3).state =
        CircuitBreakerState.OPEN ∧
    ((cbAfterThreeFailures timeout t1 t2 t3).call t4 b).2 =
        CallResult.rejected ∧
    ((cbAfterThreeFailures timeout t1 t2 t3).call t4 b).1 =
        cbAfterThreeFailures timeout t1 t2 t3 ∧
    ((cbAfterThreeFailures timeout t1 t2 t3).call t5 succ).2 =
        (if succ then CallResult.returned else CallResult.raised) ∧
    (succ = true →
      ((cbAfterThreeFailures timeout t1 t2 t3).call t5 succ).1.state =
          CircuitBreakerState.CLOSED ∧
      ((cbAfterThreeFailures timeout t1 t2 t3).call t5 succ).1.failure_count
          = 0) ∧
    (succ = false →
      ((cbAfterThreeFailures timeout t1 t2 t3).call t5 succ).1.state =
          CircuitBreakerState.OPEN) := by
  have hr4 : ¬ (t4 - t3 > timeout) := by linarith
  have hr5 : (t5 - t3 > timeout) := h5
  refine ⟨rfl, rfl, rfl, ?_, ?_, ?_, ?_, ?_⟩
  · simp [cbAfterThreeFailures_eq, CircuitBreaker.call,
      CircuitBreaker.should_attempt_reset, hr4]
  · simp [cbAfterThreeFailures_eq, CircuitBreaker.call,
      CircuitBreaker.should_attempt_reset, hr4]
  · cases succ <;>
      simp [cbAfterThreeFailures_eq, CircuitBreaker.call,
        CircuitBreaker.should_attempt_reset, hr5,
        CircuitBreaker.on_success, CircuitBreaker.on_failure]
  · intro hs
    subst hs
    constructor <;>
      simp [cbAfterThreeFailures_eq, CircuitBreaker.call,
        CircuitBreaker.should_attempt_reset, hr5, CircuitBreaker.on_success]
  · intro hs
    subst hs
    simp [cbAfterThreeFailures_eq, CircuitBreaker.call,
      CircuitBreaker.should_attempt_reset, hr5, CircuitBreaker.on_failure]

theorem circuit_breaker_lifecycle_witness :
    ((cbAfterThreeFailures 10 0 1 2).call 5 true).2 = CallResult.rejected ∧
    ((cbAfterThreeFailures 10 0 1 2).call 20 true).1.state =
      CircuitBreakerState.CLOSED :=
  ⟨(circuit_breaker_lifecycle 10 0 1 2 5 20 true true (by norm_num)
      (by norm_num)).2.2.2.1,
   ((circuit_breaker_lifecycle 10 0 1 2 5 20 true true (by norm_num)
      (by norm_num)).2.2.2.2.2.2.1 rfl).1⟩

/-- C8: the code evaluated at the claim's scenario. `IDLE` is indeed the
initial state, but after a recovery run settles (`COMPLETED` on a
successful reconnect, `FAILED` otherwise) `_recovery_process` never assigns
`IDLE` back to `_recovery_state`, so the machine is not returned to `IDLE`
and the health-check auto-trigger (which requires `IDLE`) stays disabled
for every later disconnect. -/
theorem connection_recovery_no_return_to_idle :
    recoveryInitialState = RecoveryState.IDLE ∧
    recoveryFinalState true = RecoveryState.COMPLETED ∧
    recoveryFinalState false = RecoveryState.FAILED ∧
    recoveryFinalState true ≠ RecoveryState.IDLE ∧
    recoveryFinalState false ≠ RecoveryState.IDLE ∧
    healthCheckAutoTriggers false (recoveryFinalState true) = false ∧
    healthCheckAutoTriggers false (recoveryFinalState false) = false ∧
    healthCheckAutoTriggers false recoveryInitialState = true := by decide

/-- C10: with an active session, `record_trade_result` increments exactly
one of `winning_trades` / `losing_trades` — the winning counter exactly when
`pnl > 0`, so a `pnl = 0` trade counts as losing — and always increments
`total_trades`, so `total_trades = winning_trades + losing_trades` is
preserved. -/
theorem record_trade_result_spec (s : StateManagerState)
    (sess : TradingSession) (pnl : ℚ)
    (hs : s.current_session = some sess) :
    ∃ sess2 : TradingSession,
      (StateManager.record_trade_result s pnl).current_session = some sess2 ∧
      sess2.total_trades = sess.total_trades + 1 ∧
      (0 < pnl →
        sess2.winning_trades = sess.winning_trades + 1 ∧
        sess2.losing_trades = sess.losing_trades) ∧
      (¬ 0 < pnl →
        sess2.winning_trades = sess.winning_trades ∧
        sess2.losing_trades = sess.losing_trades + 1) ∧
      (pnl = 0 → sess2.losing_trades = sess.losing_trades + 1) ∧
      (sess.total_trades = sess.winning_trades + sess.losing_trades →
        sess2.total_trades = sess2.winning_trades + sess2.losing_trades) := by
  unfold StateManager.record_trade_result
  rw [hs]
  by_cases hp : 0 < pnl <;> by_cases hb : (0:ℚ) < sess.initial_balance <;>
    refine ⟨_, rfl, ?_⟩ <;>
    simp only [hp, hb, if_true, if_false, if_pos, if_neg, not_false_iff] <;>
    refine ⟨?_, ?_, ?_, ?_, ?_⟩ <;> intros <;>
    first
      | trivial
      | omega
      | simp_all

theorem record_trade_result_spec_witness :
    ∃ sess2 : TradingSession,
      (StateManager.record_trade_result witnessSMState 0).current_session =
          some sess2 ∧
      sess2.total_trades = witnessSession.total_trades + 1 ∧
      (0 < (0:ℚ) →
        sess2.winning_trades = witnessSession.winning_trades + 1 ∧
        sess2.losing_trades = witnessSession.losing_trades) ∧
      (¬ 0 < (0:ℚ) →
        sess2.winning_trades = witnessSession.winning_trades ∧
        sess2.losing_trades = witnessSession.losing_trades + 1) ∧
      ((0:ℚ) = 0 →
        sess2.losing_trades = witnessSession.losing_trades + 1) ∧
      (witnessSession.total_trades =
          witnessSession.winning_trades + witnessSession.losing_trades →
        sess2.total_trades = sess2.winning_trades + sess2.losing_trades) :=
  record_trade_result_spec witnessSMState witnessSession 0 rfl

theorem mem_aremove {κ α : Type} [DecidableEq κ] {l : List (κ × α)} {k : κ}
    {kp : κ × α} (h : kp ∈ aremove l k) : kp ∈ l := by
  induction l with
  | nil => simp [aremove] at h
  | cons hd tl ih =>
    obtain ⟨k2, v2⟩ := hd
    by_cases hk : k2 = k
    · simp only [aremove, if_pos hk] at h
      exact List.mem_cons_of_mem _ h
    · simp only [aremove, if_neg hk] at h
      rcases List.mem_cons.mp h with h1 | h2
      · exact h1 ▸ List.mem_cons_self _ _
      · exact List.mem_cons_of_mem _ (ih h2)

theorem aremove_key_ne {κ α : Type} [DecidableEq κ] {l : List (κ × α)}
    {k : κ} (hnodup : (l.map Prod.fst).Nodup) {kp : κ × α}
    (h : kp ∈ aremove l k) : kp.1 ≠ k := by
  induction l with
  | nil => simp [aremove] at h
  | cons hd tl ih =>
    obtain ⟨k2, v2⟩ := hd
    simp only [List.map_cons, List.nodup_cons] at hnodup
    by_cases hk : k2 = k
    · subst hk
      simp only [aremove, if_pos rfl] at h
      intro hkp
      exact hnodup.1 (hkp ▸ List.mem_map_of_mem Prod.fst h)
    · simp only [aremove, if_neg hk] at h
      rcases List.mem_cons.mp h with h1 | h2
      · rw [h1]
        exact hk
      · exact ih hnodup.2 h2

theorem mem_ainsert_self {κ α : Type} [DecidableEq κ] (l : List (κ × α))
    (k : κ) (v : α) : (k, v) ∈ ainsert l k v := by
  induction l with
  | nil => simp [ainsert]
  | cons hd tl ih =>
    obtain ⟨k2, v2⟩ := hd
    by_cases hk : k2 = k
    · simp [ainsert, hk]
    · simp only [ainsert, if_neg hk]
      exact List.mem_cons_of_mem _ ih

theorem alookup_ainsert_self {κ α : Type} [DecidableEq κ] (l : List (κ × α))
    (k : κ) (v : α) : alookup (ainsert l k v) k = some v := by
  induction l with
  | nil => simp [ainsert, alookup]
  | cons hd tl ih =>
    obtain ⟨k2, v2⟩ := hd
    by_cases hk : k2 = k
    · simp [ainsert, alookup, hk]
    · simp [ainsert, alookup, hk, ih]

/-- C2 counterexample: calling `update_position` with `quantity = 0` for a
symbol that has no live position takes the create branch and stores a fresh
zero-quantity position, so `get_all_positions` immediately afterwards does
contain a position for that symbol (with quantity 0), refuting the claim's
"regardless of whether a position for the symbol existed before the
call". -/
theorem update_position_zero_counterexample :
    ∃ p ∈ StateManager.get_all_positions
        (StateManager.update_position StateManagerState.init "AAPL" 0 10 12
          "default" 0).1,
      p.symbol = "AAPL" ∧ p.quantity = 0 := by decide

/-- C2 (amended): when a position for the symbol exists, `update_position`
with `quantity = 0` removes it, and `get_all_positions` immediately
afterwards contains no position for the symbol; when no position exists,
however, the call creates and retains a zero-quantity position for the
symbol. (Hypotheses: the position table has no duplicate symbols and each
stored position's `symbol` field equals its key, both true of every state
the manager builds.) -/
theorem update_position_zero_spec (s : StateManagerState) (symbol : String)
    (avg_cost current_price : ℚ) (account : String) (now : Nat)
    (hnodup : (s.positions.map Prod.fst).Nodup)
    (hkeys : ∀ kp ∈ s.positions, (Prod.snd kp : Position).symbol = kp.1) :
    ((alookup s.positions symbol).isSome →
      ∀ p ∈ StateManager.get_all_positions
          (StateManager.update_position s symbol 0 avg_cost current_price
            account now).1, p.symbol ≠ symbol) ∧
    (alookup s.positions symbol = none →
      ∃ p ∈ StateManager.get_all_positions
          (StateManager.update_position s symbol 0 avg_cost current_price
            account now).1, p.symbol = symbol ∧ p.quantity = 0) := by
  constructor
  · intro hsome p hp
    cases h : alookup s.positions symbol with
    | none => rw [h] at hsome; simp at hsome
    | some existing =>
      simp only [StateManager.update_position, h, if_pos rfl,
        StateManager.get_all_positions, List.mem_map] at hp
      obtain ⟨kp, hkp, hkpp⟩ := hp
      have h1 : kp.1 ≠ symbol := aremove_key_ne hnodup hkp
      have h2 : kp ∈ s.positions := mem_aremove hkp
      rw [← hkpp]
      rw [hkeys kp h2]
      exact h1
  · intro hnone
    simp only [StateManager.update_position, hnone,
      StateManager.update_position_create, StateManager.get_all_positions]
    refine ⟨_, List.mem_map_of_mem Prod.snd
      (mem_ainsert_self s.positions symbol _), rfl, rfl⟩

theorem update_position_zero_spec_witness :
    ¬ ∃ p ∈ StateManager.get_all_positions
        (StateManager.update_position witnessSMState2 "AAPL" 0 10 12
          "default" 1).1, p.symbol = "AAPL" :=
  fun ⟨p, hp, he⟩ =>
    (update_position_zero_spec witnessSMState2 "AAPL" 10 12 "default" 1
      (by decide) (by decide)).1 (by decide) p hp he

theorem abs_market_value_sum_nonneg (l : List Position) :
    0 ≤ (l.map (fun p => |p.market_value|)).sum := by
  apply List.sum_nonneg
  intro x hx
  obtain ⟨p, _, rfl⟩ := List.mem_map.mp hx
  exact abs_nonneg _

theorem riskTotalAccountValue_ne_zero (accounts : List (String × AccountData)) :
    riskTotalAccountValue accounts ≠ 0 := by
  unfold riskTotalAccountValue
  by_cases h : (accounts.map (fun a => a.2.total_value)).sum = 0 <;>
    simp [h]

theorem margin_usage_percent_nonneg (positions : List (String × Position))
    (accounts : List (String × AccountData)) :
    0 ≤ (calculate_risk_metrics positions accounts).margin_usage_percent := by
  cases positions with
  | nil => simp [calculate_risk_metrics]
  | cons kp kps =>
    show 0 ≤ (if 0 < riskTotalAccountValue accounts then _ else (0:ℚ))
    split_ifs with h
    · exact mul_nonneg
        (div_nonneg (abs_market_value_sum_nonneg _) (le_of_lt h))
        (by norm_num)
    · exact le_refl 0

/-- C6: with at least one live position the risk score equals the capped
sum `min(count*5, 30) + min(margin_usage_percent/2, 40) + (if the account
value is positive then min(|unrealized_pnl/account_value|*100, 30) else 0)`,
the total capped at 100; with no live positions it is 0; and it always lies
in `[0, 100]`.  (`riskTotalAccountValue` is the code's
`sum(...) or 1.0` account value.) -/
theorem risk_score_spec (positions : List (String × Position))
    (accounts : List (String × AccountData)) :
    (positions = [] →
      (calculate_risk_metrics positions accounts).risk_score = 0) ∧
    (positions ≠ [] →
      (calculate_risk_metrics positions accounts).risk_score =
        min (min ((positions.length : ℚ) * 5) 30 +
             min ((calculate_risk_metrics positions accounts).margin_usage_percent
                    / 2) 40 +
             (if 0 < riskTotalAccountValue accounts then
                min (|(calculate_risk_metrics positions
                        accounts).total_unrealized_pnl /
                       riskTotalAccountValue accounts| * 100) 30
              else 0)) 100) ∧
    0 ≤ (calculate_risk_metrics positions accounts).risk_score ∧
    (calculate_risk_metrics positions accounts).risk_score ≤ 100 := by
  cases positions with
  | nil =>
    refine ⟨fun _ => rfl, fun h => absurd rfl h, ?_, ?_⟩ <;>
      norm_num [calculate_risk_metrics]
  | cons kp kps =>
    have hscore : (calculate_risk_metrics (kp :: kps) accounts).risk_score =
        min (min (((kp :: kps).length : ℚ) * 5) 30 +
             min ((calculate_risk_metrics (kp :: kps)
                    accounts).margin_usage_percent / 2) 40 +
             (if 0 < riskTotalAccountValue accounts then
                min (|(calculate_risk_metrics (kp :: kps)
                        accounts).total_unrealized_pnl /
                       riskTotalAccountValue accounts| * 100) 30
              else 0)) 100 := by
      simp [calculate_risk_metrics, add_zero, List.length_map]
      ring_nf
    have h1 : 0 ≤ min (((kp :: kps).length : ℚ) * 5) 30 :=
      le_min (by positivity) (by norm_num)
    have h2 : 0 ≤ min ((calculate_risk_metrics (kp :: kps)
        accounts).margin_usage_percent / 2) 40 := by
      have := margin_usage_percent_nonneg (kp :: kps) accounts
      exact le_min (by linarith) (by norm_num)
    have h3 : 0 ≤ (if 0 < riskTotalAccountValue accounts then
        min (|(calculate_risk_metrics (kp :: kps)
                accounts).total_unrealized_pnl /
               riskTotalAccountValue accounts| * 100) 30
      else (0:ℚ)) := by
      split_ifs
      · exact le_min (by positivity) (by norm_num)
      · exact le_refl 0
    refine ⟨fun h => by simp at h, fun _ => hscore, ?_, ?_⟩
    · rw [hscore]
      exact le_min (by linarith) (by norm_num)
    · rw [hscore]
      exact min_le_right _ _

theorem risk_score_spec_witness :
    (calculate_risk_metrics [("AAPL", witnessPosition)] []).risk_score =
      min (min ((([("AAPL", witnessPosition)] :
              List (String × Position)).length : ℚ) * 5) 30 +
           min ((calculate_risk_metrics [("AAPL", witnessPosition)]
                  []).margin_usage_percent / 2) 40 +
           (if 0 < riskTotalAccountValue [] then
              min (|(calculate_risk_metrics [("AAPL", witnessPosition)]
                      []).total_unrealized_pnl /
                     riskTotalAccountValue []| * 100) 30
            else 0)) 100 :=
  (risk_score_spec [("AAPL", witnessPosition)] []).2.1 (by simp)

/-- C4: `update_order_status` maps the raw broker status through the fixed
lookup table (default `ACKNOWLEDGED` for any unmapped string); when
`0 < filled < quantity` the resulting status is `PARTIALLY_FILLED`
regardless of the table; and an unknown order id returns an absent result
and leaves the state unchanged (the modelled call is a total function, so
nothing is raised). -/
theorem update_order_status_spec (s : OrderManagerState) (order_id : Int)
    (raw : String) (filled remaining : Int) (avg lastp : ℚ)
    (message : String) (now : Nat) :
    (status_map "PendingSubmit" = OrderStatus.PENDING ∧
     status_map "PreSubmitted" = OrderStatus.SUBMITTED ∧
     status_map "Submitted" = OrderStatus.SUBMITTED ∧
     status_map "Filled" = OrderStatus.FILLED ∧
     status_map "Cancelled" = OrderStatus.CANCELLED ∧
     status_map "Inactive" = OrderStatus.CANCELLED ∧
     status_map "ApiCancelled" = OrderStatus.CANCELLED ∧
     status_map "Error" = OrderStatus.ERROR) ∧
    (raw ∉ ["PendingSubmit", "PreSubmitted", "Submitted", "Filled",
            "Cancelled", "Inactive", "ApiCancelled", "Error"] →
      status_map raw = OrderStatus.ACKNOWLEDGED) ∧
    (alookup s.orders order_id = none →
      OrderManager.update_order_status s order_id raw filled remaining avg
        lastp message now = (s, none)) ∧
    (∀ order : OrderDetails, alookup s.orders order_id = some order →
      ∃ order2 : OrderDetails,
        (OrderManager.update_order_status s order_id raw filled remaining avg
          lastp message now).2 = some order2 ∧
        order2.status =
          (if 0 < filled ∧ filled < order.quantity then
            OrderStatus.PARTIALLY_FILLED
           else status_map raw) ∧
        order2.filled_quantity = filled ∧
        order2.remaining_quantity = remaining) := by
  refine ⟨⟨rfl, rfl, rfl, rfl, rfl, rfl, rfl, rfl⟩, ?_, ?_, ?_⟩
  · intro h
    simp only [List.mem_cons, List.mem_singleton, not_or] at h
    obtain ⟨h1, h2, h3, h4, h5, h6, h7, h8, _⟩ := h
    simp [status_map, h1, h2, h3, h4, h5, h6, h7, h8]
  · intro h
    simp [OrderManager.update_order_status, h]
  · intro order h
    simp only [OrderManager.update_order_status, h]
    exact ⟨_, rfl, rfl, rfl, rfl⟩

theorem update_order_status_spec_witness :
    OrderManager.update_order_status OrderManagerState.init 7 "Bogus" 0 0 0 0
      "" 0 = (OrderManagerState.init, none) :=
  (update_order_status_spec OrderManagerState.init 7 "Bogus" 0 0 0 0 ""
    0).2.2.1 rfl

/-- C7 counterexample: after `create_order` has stored order id 1 (quantity
5), a second `create_order` with the same id does not fail — it succeeds and
silently replaces the existing order (its quantity becomes 7), refuting
"fails only if id already exists" and "the existing order is left
unchanged". -/
theorem create_order_duplicate_counterexample :
    OrderManager.create_order OrderManagerState.init 1 "AAPL" "BUY" "MARKET"
      5 none none 0 = some (dupState1, dupOrder1) ∧
    alookup dupState1.orders 1 = some dupOrder1 ∧
    dupOrder1.quantity = 5 ∧
    dupCreate2.isSome = true ∧
    (dupCreate2.map (fun x => (alookup x.1.orders 1).map
        (fun o => o.quantity))) = some (some 7) := by decide

/-- C7 (amended): `create_order` creates a new order in PENDING status with
filled 0, remaining equal to the requested quantity and a single
ORDER_CREATED event, stored under its id; it fails exactly when the action
or order-type string is not a valid enum member name (the `KeyError` from
`OrderAction[action]` / `OrderType[order_type]`) — a duplicate id is not a
failure condition, the existing order is silently overwritten. -/
theorem create_order_spec (s : OrderManagerState) (order_id : Int)
    (symbol action order_type : String) (quantity : Int)
    (limit_price stop_price : Option ℚ) (now : Nat) :
    (OrderManager.create_order s order_id symbol action order_type quantity
        limit_price stop_price now = none ↔
      OrderAction.ofString action = none ∨
      OrderType.ofString order_type = none) ∧
    (∀ (s2 : OrderManagerState) (order : OrderDetails),
      OrderManager.create_order s order_id symbol action order_type quantity
        limit_price stop_price now = some (s2, order) →
      order.status = OrderStatus.PENDING ∧
      order.filled_quantity = 0 ∧
      order.remaining_quantity = quantity ∧
      order.events.map OrderEvent.event_type = ["ORDER_CREATED"] ∧
      alookup s2.orders order_id = some order) := by
  constructor
  · cases ha : OrderAction.ofString action <;>
      cases ht : OrderType.ofString order_type <;>
      simp [OrderManager.create_order, ha, ht]
  · intro s2 order h
    cases ha : OrderAction.ofString action <;>
      cases ht : OrderType.ofString order_type <;>
      simp [OrderManager.create_order, ha, ht] at h
    obtain ⟨hs2, horder⟩ := h
    subst hs2
    rw [← horder]
    refine ⟨rfl, rfl, rfl, rfl, ?_⟩
    exact alookup_ainsert_self _ _ _

theorem create_order_spec_witness :
    dupOrder1.status = OrderStatus.PENDING ∧
    dupOrder1.filled_quantity = 0 ∧
    dupOrder1.remaining_quantity = 5 ∧
    dupOrder1.events.map OrderEvent.event_type = ["ORDER_CREATED"] ∧
    alookup dupState1.orders 1 = some dupOrder1 :=
  (create_order_spec OrderManagerState.init 1 "AAPL" "BUY" "MARKET" 5
    none none 0).2 dupState1 dupOrder1 (by decide)

theorem alookup_ainsert {κ α : Type} [DecidableEq κ] (l : List (κ × α))
    (k k2 : κ) (v : α) :
    alookup (ainsert l k v) k2 = if k = k2 then some v else alookup l k2 := by
  induction l with
  | nil => simp [ainsert, alookup]
  | cons hd tl ih =>
    obtain ⟨k3, v3⟩ := hd
    by_cases h3k : k3 = k <;> by_cases h3k2 : k3 = k2 <;>
      by_cases hkk2 : k = k2 <;>
      simp_all [ainsert, alookup]

theorem OMOp.apply_preserves (s : OrderManagerState) (now : Nat) (op : OMOp)
    (hInv : OMInvariant s) (hok : op.consistent s = true) :
    OMInvariant (op.apply s now) := by
  cases op with
  | create order_id symbol action order_type quantity limit_price stop_price =>
    simp only [OMOp.consistent, decide_eq_true_eq] at hok
    cases ha : OrderAction.ofString action with
    | none =>
      simpa [OMOp.apply, OrderManager.create_order, ha] using hInv
    | some act =>
      cases ht : OrderType.ofString order_type with
      | none =>
        simpa [OMOp.apply, OrderManager.create_order, ha, ht] using hInv
      | some otype =>
        intro id o ho
        simp only [OMOp.apply, OrderManager.create_order, ha, ht] at ho
        rw [alookup_ainsert] at ho
        by_cases hid : order_id = id
        · rw [if_pos hid] at ho
          cases ho
          exact ⟨le_refl 0, hok,
            fun hmem => by simp [terminalStatuses] at hmem⟩
        · rw [if_neg hid] at ho
          exact hInv id o ho
  | updateStatus order_id status filled remaining avg lastp message =>
    simp only [OMOp.consistent] at hok
    cases h : alookup s.orders order_id with
    | none =>
      simpa [OMOp.apply, OrderManager.update_order_status, h] using hInv
    | some order =>
      rw [h] at hok
      simp only [decide_eq_true_eq] at hok
      obtain ⟨h0, h1, h2⟩ := hok
      intro id o ho
      simp only [OMOp.apply, OrderManager.update_order_status, h] at ho
      rw [alookup_ainsert] at ho
      by_cases hid : order_id = id
      · rw [if_pos hid] at ho
        cases ho
        exact ⟨h0, h1, fun _ => h2⟩
      · rw [if_neg hid] at ho
        exact hInv id o ho
  | addExec order_id exec_id symbol side quantity price commission cum avgp =>
    cases h : alookup s.orders order_id with
    | none =>
      simpa [OMOp.apply, OrderManager.add_execution, h] using hInv
    | some order =>
      intro id o ho
      simp only [OMOp.apply, OrderManager.add_execution, h] at ho
      rw [alookup_ainsert] at ho
      by_cases hid : order_id = id
      · rw [if_pos hid] at ho
        cases ho
        exact hInv order_id order h
      · rw [if_neg hid] at ho
        exact hInv id o ho

theorem OMRunAux_preserves (ops : List OMOp) :
    ∀ (s : OrderManagerState) (t : Nat), OMInvariant s →
      (OMRunAux s t ops).2 = true → OMInvariant (OMRunAux s t ops).1 := by
  induction ops with
  | nil => intro s t h _; exact h
  | cons op rest ih =>
    intro s t hInv hok
    simp only [OMRunAux, Bool.and_eq_true] at hok ⊢
    exact ih (op.apply s t) (t + 1)
      (OMOp.apply_preserves s t op hInv hok.1) hok.2

/-- C1 counterexample: `update_order_status` copies `filled` and
`remaining` verbatim from the caller with no validation, so after
`create_order(1, ..., quantity=5)` followed by
`update_order_status(1, "Submitted", filled=10, remaining=0)` the tracked
order has `filled_quantity = 10 > 5 = quantity`, refuting the claim for
arbitrary call sequences. -/
theorem order_tracker_invariant_counterexample :
    ((alookup (OMRun c1CounterOps).orders 1).map
      (fun o => (o.filled_quantity, o.quantity))) = some (10, 5) ∧
    ¬ ((10 : Int) ≤ 5) := by decide

/-- C1 (amended): the invariant holds after any sequence of `create_order`,
`update_order_status` and `add_execution` calls whose arguments are
consistent with the tracked order (created quantities non-negative, and
every status update reporting `0 ≤ filled ≤ quantity` and
`filled + remaining = quantity`, as genuine TWS callbacks do): every tracked
order then satisfies `0 ≤ filled_quantity ≤ quantity`, and a terminal order
(FILLED, CANCELLED, REJECTED, ERROR) satisfies
`filled_quantity + remaining_quantity = quantity`.  The code itself copies
`filled`/`remaining` verbatim and enforces nothing. -/
theorem order_tracker_invariant (ops : List OMOp)
    (hconsistent : OMRunConsistent ops = true) :
    ∀ (id : Int) (o : OrderDetails), alookup (OMRun ops).orders id = some o →
      0 ≤ o.filled_quantity ∧ o.filled_quantity ≤ o.quantity ∧
      (o.status ∈ terminalStatuses →
        o.filled_quantity + o.remaining_quantity = o.quantity) := by
  have hinit : OMInvariant OrderManagerState.init := by
    intro id o ho
    simp [OrderManagerState.init, alookup] at ho
  exact OMRunAux_preserves ops OrderManagerState.init 0 hinit hconsistent

theorem order_tracker_invariant_witness :
    ((alookup (OMRun c1WitnessOps).orders 1).map
      (fun o => (o.filled_quantity, o.remaining_quantity, o.quantity))) =
        some (5, 0, 5) ∧
    ¬ ∃ o : OrderDetails, alookup (OMRun c1WitnessOps).orders 1 = some o ∧
      ¬ (0 ≤ o.filled_quantity ∧ o.filled_quantity ≤ o.quantity ∧
         (o.status ∈ terminalStatuses →
           o.filled_quantity + o.remaining_quantity = o.quantity)) :=
  ⟨by decide,
   fun ⟨o, ho, hno⟩ =>
     hno (order_tracker_invariant c1WitnessOps (by decide) 1 o ho)⟩

theorem foldl_map_key {β γ : Type} (f : β → γ) (g : γ → γ → γ)
    (l : List β) (a : γ) :
    l.foldl (fun acc x => g acc (f x)) a = (l.map f).foldl g a := by
  induction l generalizing a with
  | nil => rfl
  | cons hd tl ih => simp [ih]

theorem foldl_add_eq {M : Type} [AddCommMonoid M] {β : Type} (f : β → M)
    (l : List β) (a : M) :
    l.foldl (fun acc x => acc + f x) a = a + (l.map f).sum := by
  induction l generalizing a with
  | nil => simp
  | cons hd tl ih => simp [ih, add_assoc]

theorem foldl_max_le_iff {α : Type} [LinearOrder α] (l : List α) (a b : α) :
    l.foldl max a ≤ b ↔ a ≤ b ∧ ∀ x ∈ l, x ≤ b := by
  induction l generalizing a with
  | nil => simp
  | cons hd tl ih =>
    simp only [List.foldl_cons, ih, max_le_iff, List.mem_cons]
    constructor
    · rintro ⟨⟨ha, hhd⟩, htl⟩
      exact ⟨ha, fun x hx => hx.elim (fun he => he ▸ hhd) (htl x)⟩
    · rintro ⟨ha, hall⟩
      exact ⟨⟨ha, hall hd (Or.inl rfl)⟩,
        fun x hx => hall x (Or.inr hx)⟩

theorem foldl_max_mem_cons {α : Type} [LinearOrder α] (a : α) (l : List α) :
    l.foldl max a ∈ a :: l := by
  induction l generalizing a with
  | nil => exact List.mem_cons_self _ _
  | cons hd tl ih =>
    rw [List.foldl_cons]
    rcases List.mem_cons.mp (ih (max a hd)) with h | h
    · rcases max_choice a hd with he | he
      · rw [h, he]; exact List.mem_cons_self _ _
      · rw [h, he]
        exact List.mem_cons_of_mem _ (List.mem_cons_self _ _)
    · exact List.mem_cons_of_mem _ (List.mem_cons_of_mem _ h)

theorem le_foldl_max {α : Type} [LinearOrder α] (a : α) (l : List α) :
    ∀ x ∈ a :: l, x ≤ l.foldl max a := by
  intro x hx
  have hh := (foldl_max_le_iff l a (l.foldl max a)).mp (le_refl _)
  rcases List.mem_cons.mp hx with h | h
  · exact h ▸ hh.1
  · exact hh.2 x h

theorem le_foldl_min_iff {α : Type} [LinearOrder α] (l : List α) (a b : α) :
    b ≤ l.foldl min a ↔ b ≤ a ∧ ∀ x ∈ l, b ≤ x := by
  induction l generalizing a with
  | nil => simp
  | cons hd tl ih =>
    simp only [List.foldl_cons, ih, le_min_iff, List.mem_cons]
    constructor
    · rintro ⟨⟨ha, hhd⟩, htl⟩
      exact ⟨ha, fun x hx => hx.elim (fun he => he ▸ hhd) (htl x)⟩
    · rintro ⟨ha, hall⟩
      exact ⟨⟨ha, hall hd (Or.inl rfl)⟩,
        fun x hx => hall x (Or.inr hx)⟩

theorem foldl_min_mem_cons {α : Type} [LinearOrder α] (a : α) (l : List α) :
    l.foldl min a ∈ a :: l := by
  induction l generalizing a with
  | nil => exact List.mem_cons_self _ _
  | cons hd tl ih =>
    rw [List.foldl_cons]
    rcases List.mem_cons.mp (ih (min a hd)) with h | h
    · rcases min_choice a hd with he | he
      · rw [h, he]; exact List.mem_cons_self _ _
      · rw [h, he]
        exact List.mem_cons_of_mem _ (List.mem_cons_self _ _)
    · exact List.mem_cons_of_mem _ (List.mem_cons_of_mem _ h)

theorem foldl_min_le {α : Type} [LinearOrder α] (a : α) (l : List α) :
    ∀ x ∈ a :: l, l.foldl min a ≤ x := by
  intro x hx
  have hh := (le_foldl_min_iff l a (l.foldl min a)).mp (le_refl _)
  rcases List.mem_cons.mp hx with h | h
  · exact h ▸ hh.1
  · exact hh.2 x h

theorem get_aggregated_bar_eq (symbol : String) (bars : List FiveSecondBar)
    (now : ℚ) (seconds : Int) (first : FiveSecondBar)
    (rest : List FiveSecondBar)
    (h : recentBars bars now seconds = first :: rest) :
    BarBuffer.get_aggregated_bar symbol bars now seconds =
      some { symbol := symbol
             period := period_map seconds
             timestamp := (rest.getLastD first).timestamp
             open_ := first.open_
             high := rest.foldl (fun acc bar => max acc bar.high) first.high
             low := rest.foldl (fun acc bar => min acc bar.low) first.low
             close := (rest.getLastD first).close
             volume := rest.foldl (fun acc bar => acc + bar.volume)
               first.volume
             vwap := pyRound2
               (if 0 < rest.foldl (fun acc bar => acc + bar.volume)
                   first.volume then
                 (rest.foldl (fun acc bar => acc + bar.wap * (bar.volume : ℚ))
                   (first.wap * (first.volume : ℚ))) /
                   ((rest.foldl (fun acc bar => acc + bar.volume)
                     first.volume : Int) : ℚ)
                else (rest.getLastD first).close)
             trade_count := rest.foldl (fun acc bar => acc + bar.count)
               first.count } := by
  have hb : bars ≠ [] := by
    intro hbe
    rw [hbe] at h
    simp [recentBars] at h
  simp only [BarBuffer.get_aggregated_bar, hb, if_false, h]

/-- C5 counterexample: for a single in-window bar with wap 1.234 and
volume 100, the code rounds the VWAP to two decimal places and returns
1.23, while `Σ(wap×volume)/Σvolume = 1.234`, so the claim's "VWAP equals
Σ(wap×volume)/Σvolume" fails as an exact equality. -/
theorem get_aggregated_bar_vwap_counterexample :
    ((BarBuffer.get_aggregated_bar "AAPL" [roundingBar] 0 25).map
      AggregatedBar.vwap) = some (123/100) ∧
    (([roundingBar].map (fun b => b.wap * (b.volume : ℚ))).sum /
        ((([roundingBar].map FiveSecondBar.volume).sum : Int) : ℚ)) =
      1234/1000 ∧
    (123/100 : ℚ) ≠ 1234/1000 := by
  refine ⟨?_, ?_, by norm_num⟩
  · have hr : recentBars [roundingBar] 0 25 = [roundingBar] := by
      simp [recentBars, roundingBar]
    rw [get_aggregated_bar_eq "AAPL" [roundingBar] 0 25 roundingBar [] hr]
    simp only [roundingBar, List.foldl_nil, Option.map_some]
    norm_num
    have hf : ⌊(617/500 : ℚ) * 100⌋ = 123 := by
      rw [Int.floor_eq_iff]
      constructor <;> norm_num
    simp only [pyRound2, hf]
    rw [if_pos (by norm_num)]
    norm_num
  · simp only [roundingBar, List.map_cons, List.map_nil, List.sum_cons,
      List.sum_nil]
    norm_num

/-- C5 (amended): aggregation over the trailing window returns nothing
exactly when no buffered bar's timestamp lies within the window; otherwise
it returns one synthetic bar whose open is the first in-window bar's open,
close the last in-window bar's close, high/low the maximum/minimum across
the window, volume the sum of in-window volumes, and VWAP equal to
Σ(wap×volume)/Σvolume — rounded to two decimal places by `round(vwap, 2)` —
falling back to the close price when the summed volume is zero.  The
five-bar scenario (closes 150.0, 150.1, 150.2, 150.3, 150.5, equal volume
100) aggregates to open 150.0, close 150.5, high 150.5, low 150.0,
volume 500 and vwap 150.22, the weighted average of the five closes. -/
theorem get_aggregated_bar_spec (symbol : String)
    (bars : List FiveSecondBar) (now : ℚ) (seconds : Int) :
    (BarBuffer.get_aggregated_bar symbol bars now seconds = none ↔
      recentBars bars now seconds = []) ∧
    (∀ (first : FiveSecondBar) (rest : List FiveSecondBar),
      recentBars bars now seconds = first :: rest →
      ∃ ab : AggregatedBar,
        BarBuffer.get_aggregated_bar symbol bars now seconds = some ab ∧
        ab.open_ = first.open_ ∧
        ab.close = (rest.getLastD first).close ∧
        ab.high ∈ (first :: rest).map FiveSecondBar.high ∧
        (∀ x ∈ (first :: rest).map FiveSecondBar.high, x ≤ ab.high) ∧
        ab.low ∈ (first :: rest).map FiveSecondBar.low ∧
        (∀ x ∈ (first :: rest).map FiveSecondBar.low, ab.low ≤ x) ∧
        ab.volume = ((first :: rest).map FiveSecondBar.volume).sum ∧
        ab.trade_count = ((first :: rest).map FiveSecondBar.count).sum ∧
        ab.vwap = pyRound2
          (if 0 < ((first :: rest).map FiveSecondBar.volume).sum then
            ((first :: rest).map (fun b => b.wap * (b.volume : ℚ))).sum /
              ((((first :: rest).map FiveSecondBar.volume).sum : Int) : ℚ)
           else (rest.getLastD first).close)) ∧
    BarBuffer.get_aggregated_bar "AAPL" scenarioBars 100 25 =
      some { symbol := "AAPL"
             period := "25s"
             timestamp := 100
             open_ := 150
             high := 150.5
             low := 150
             close := 150.5
             volume := 500
             vwap := 150.22
             trade_count := 5 } := by
  refine ⟨?_, ?_, ?_⟩
  · unfold BarBuffer.get_aggregated_bar
    by_cases hb : bars = []
    · subst hb
      simp [recentBars]
    · simp only [hb, if_false]
      cases h : recentBars bars now seconds with
      | nil => simp
      | cons f r => simp [h]
  · intro first rest h
    have hget := get_aggregated_bar_eq symbol bars now seconds first rest h
    have hvol : rest.foldl (fun acc bar => acc + bar.volume) first.volume =
        ((first :: rest).map FiveSecondBar.volume).sum := by
      rw [foldl_add_eq FiveSecondBar.volume]
      simp
    have htrades : rest.foldl (fun acc bar => acc + bar.count) first.count =
        ((first :: rest).map FiveSecondBar.count).sum := by
      rw [foldl_add_eq FiveSecondBar.count]
      simp
    have hnum : rest.foldl (fun acc bar => acc + bar.wap * (bar.volume : ℚ))
        (first.wap * (first.volume : ℚ)) =
        ((first :: rest).map (fun b => b.wap * (b.volume : ℚ))).sum := by
      rw [foldl_add_eq (fun b : FiveSecondBar => b.wap * (b.volume : ℚ))]
      simp
    refine ⟨_, hget, rfl, rfl, ?_, ?_, ?_, ?_, ?_, ?_, ?_⟩
    · show rest.foldl (fun acc bar => max acc bar.high) first.high ∈ _
      rw [foldl_map_key FiveSecondBar.high max]
      simpa using foldl_max_mem_cons first.high
        (rest.map FiveSecondBar.high)
    · intro x hx
      show x ≤ rest.foldl (fun acc bar => max acc bar.high) first.high
      rw [foldl_map_key FiveSecondBar.high max]
      exact le_foldl_max first.high (rest.map FiveSecondBar.high) x
        (by simpa using hx)
    · show rest.foldl (fun acc bar => min acc bar.low) first.low ∈ _
      rw [foldl_map_key FiveSecondBar.low min]
      simpa using foldl_min_mem_cons first.low
        (rest.map FiveSecondBar.low)
    · intro x hx
      show rest.foldl (fun acc bar => min acc bar.low) first.low ≤ x
      rw [foldl_map_key FiveSecondBar.low min]
      exact foldl_min_le first.low (rest.map FiveSecondBar.low) x
        (by simpa using hx)
    · exact hvol
    · exact htrades
    · show pyRound2 _ = pyRound2 _
      rw [hvol, hnum]
  · rw [get_aggregated_bar_eq "AAPL" scenarioBars 100 25 (scenarioBar 80 150)
      [scenarioBar 85 150.1, scenarioBar 90 150.2, scenarioBar 95 150.3,
       scenarioBar 100 150.5]
      (by simp [recentBars, scenarioBars, scenarioBar]; norm_num)]
    simp only [scenarioBar, List.foldl_cons, List.foldl_nil,
      List.getLastD_cons, List.getLastD_nil, Option.some.injEq,
      AggregatedBar.mk.injEq]
    norm_num [max_def, min_def, period_map]
    refine ⟨by decide, ?_⟩
    have hf : ⌊(7511/50 : ℚ) * 100⌋ = 15022 := by
      rw [Int.floor_eq_iff]
      constructor <;> norm_num
    simp only [pyRound2, hf]
    rw [if_pos (by norm_num)]
    norm_num
